import Mathlib

/-!
Verification of the pymapdl-reader specification against the repository.

The repository ships a single source file, `src/setup.py` (the build
script); the binary-decoding core described by the specification lives in
Cython/C extension sources that are not part of `src/`.  Accordingly the
first half of this file is a shallow embedding of `setup.py` (its
`check_cython` guard, `compilerName` argv scanner, compile-argument
selection, the 64-bit vtk guard, and the extension-module registration),
and the second half models the decoding core from the specification text
(each such definition is marked `Modelled from the spec:`).
-/

namespace Spec2Proof

/-! ## Part 1: the build script `src/setup.py` -/

/-- Errors a top-level Python script can raise while `setup.py` runs. -/
inductive PyError where
  | importError (msg : String)
  | runtimeError (msg : String)
deriving DecidableEq, Repr

/-- `true` for an ASCII lowercase letter, the character class `[a-z]`. -/
def isLowerAscii (c : Char) : Bool := 'a' ≤ c && c ≤ 'z'

/-- Substring containment on character lists: does `s` contain `pat`
as a contiguous run?  This embeds Python's `pat in s` on strings. -/
def listHasSub (pat : List Char) : List Char → Bool
  | [] => pat.isEmpty
  | c :: rest => List.isPrefixOf pat (c :: rest) || listHasSub pat rest

/-- Python's `pat in hay` substring test on strings. -/
def strHasSub (hay pat : String) : Bool := listHasSub pat.data hay.data

/-- The exact message of the `ImportError` raised by `check_cython`
(src/setup.py lines 33-36). -/
def cythonErrMsg : String :=
  "\n\n\nTo build pyansys please install Cython with:\n\npip install cython\n\n"

/-- `check_cython` (src/setup.py lines 21-36).  `files` is the listing of
directory `ansys/mapdl/reader`; `cythonImportable` says whether
`import cython` succeeds.  The Python loop sets `has_binary_reader` when
any filename contains `"_binary_reader"`; when it stays unset and cython
is not importable the function raises `ImportError`. -/
def check_cython (files : List String) (cythonImportable : Bool) :
    Except PyError Unit :=
  let hasBinaryReader := files.any (fun f => strHasSub f "_binary_reader")
  if hasBinaryReader then .ok ()
  else if cythonImportable then .ok ()
  else .error (.importError cythonErrMsg)

/-- Matcher for the regex `^-[a-z]*c$` applied after the leading dash:
the remaining characters are lowercase letters ending in `c`. -/
def dashCEnd : List Char → Bool
  | [] => false
  | [c] => c == 'c'
  | c :: rest => isLowerAscii c && dashCEnd rest

/-- `re.search("^-[a-z]*c$", a)` as a Boolean (src/setup.py line 91). -/
def matchesDashC (a : String) : Bool :=
  match a.data with
  | '-' :: t => dashCEnd t
  | _ => false

/-- Greedy matcher for `-[a-z]*c(.+)` after the leading dash: split the
characters as `l ++ 'c' :: g` with `l` all lowercase and `g` nonempty,
preferring the longest `l` (Python's greedy `[a-z]*`), returning group
`g`. -/
def dashCGroup : List Char → Option (List Char)
  | [] => none
  | c :: rest =>
    if isLowerAscii c then
      match dashCGroup rest with
      | some g => some g
      | none => if c == 'c' && !rest.isEmpty then some rest else none
    else none

/-- `re.search("^-[a-z]*c(.+)", a)` returning group 1
(src/setup.py line 97). -/
def matchDashCVal (a : String) : Option String :=
  match a.data with
  | '-' :: t => (dashCGroup t).map (fun g => String.mk g)
  | _ => none

/-- `re.search("^--compiler=(.+)", a)` returning group 1
(src/setup.py line 95). -/
def matchCompilerEq (a : String) : Option String :=
  let p := "--compiler=".data
  if List.isPrefixOf p a.data && p.length < a.data.length then
    some (String.mk (a.data.drop p.length))
  else none

/-- One iteration of the `for a in sys.argv[2:]` loop of `compilerName`
(src/setup.py lines 85-99).  State is `(comp, getnext)`.  Faithfully,
`comp = m.group(1)` sits inside the `if m is None:` branch, so an
argument matching `^--compiler=(.+)` leaves `comp` unchanged. -/
def compilerStep : String × Bool → String → String × Bool
  | (comp, getnext), a =>
    if getnext then (a, false)
    else if a == "--compiler" || matchesDashC a then (comp, true)
    else
      match matchCompilerEq a with
      | some _ => (comp, false)
      | none =>
        match matchDashCVal a with
        | some v => (v, false)
        | none => (comp, false)

/-- `compilerName()` (src/setup.py lines 77-101): starts from distutils'
default compiler `dflt` and folds the loop body over `sys.argv[2:]`. -/
def compilerName (dflt : String) (argv : List String) : String :=
  ((argv.drop 2).foldl compilerStep (dflt, false)).1

/-- The compile-argument assignment (src/setup.py lines 104-109):
`["-O3", "-w"]` when the compiler is `"unix"`, `["/Ox", "-w"]`
otherwise. -/
def cmp_arg (compiler : String) : List String :=
  if compiler == "unix" then ["-O3", "-w"] else ["/Ox", "-w"]

/-- One `Extension(...)` entry of the `ext_modules` list. -/
structure ExtModule where
  name : String
  sources : List String
  extraCompileArgs : List String
  language : String
deriving DecidableEq, Repr

/-- The `ext_modules` argument of `setup(...)`
(src/setup.py lines 166-207), parametrised by the compile arguments
`args` that the script computed as `cmp_arg`. -/
def ext_modules (args : List String) : List ExtModule :=
  [ { name := "ansys.mapdl.reader._archive"
    , sources := [ "ansys/mapdl/reader/cython/_archive.pyx"
                 , "ansys/mapdl/reader/cython/archive.c" ]
    , extraCompileArgs := args
    , language := "c" }
  , { name := "ansys.mapdl.reader._reader"
    , sources := [ "ansys/mapdl/reader/cython/_reader.pyx"
                 , "ansys/mapdl/reader/cython/reader.c"
                 , "ansys/mapdl/reader/cython/vtk_support.c" ]
    , extraCompileArgs := args
    , language := "c" }
  , { name := "ansys.mapdl.reader._relaxmidside"
    , sources := [ "ansys/mapdl/reader/cython/_relaxmidside.pyx" ]
    , extraCompileArgs := args
    , language := "c" }
  , { name := "ansys.mapdl.reader._cellqual"
    , sources := [ "ansys/mapdl/reader/cython/_cellqual.pyx" ]
    , extraCompileArgs := args
    , language := "c" }
  , { name := "ansys.mapdl.reader._binary_reader"
    , sources := [ "ansys/mapdl/reader/cython/_binary_reader.pyx"
                 , "ansys/mapdl/reader/cython/binary_reader.cpp" ]
    , extraCompileArgs := args
    , language := "c++" } ]

/-- Line count of `src/setup.py` (transcribed: the file has 221 lines,
the last one unterminated). -/
def setupPyLineCount : Nat := 221

/-- The message of the 64-bit `RuntimeError` (src/setup.py lines
135-139), up to the interpolated interpreter path. -/
def vtkErrMsg : String :=
  "\n\n``ansys-mapdl-reader`` requires 64-bit Python due to vtk.\nPlease check the version of Python installed at\n"

/-- The vtk import guard (src/setup.py lines 128-139).  `ptrSize` is
`struct.calcsize("P")` in bytes; `vtkImportable` says whether
`import vtk` succeeds.  When `ptrSize * 8 == 64` the guarded block is
skipped; otherwise `import vtk` is attempted and on `ImportError` a
`RuntimeError` is raised. -/
def vtk_guard (ptrSize : Nat) (vtkImportable : Bool) : Except PyError Unit :=
  if ptrSize * 8 == 64 then .ok ()
  else if vtkImportable then .ok ()
  else .error (.runtimeError vtkErrMsg)

/-! ### Theorems about the build script -/

/-- C1: `src/setup.py` is exactly 221 lines long and registers exactly
five distinct extension modules, named `ansys.mapdl.reader._archive`,
`._reader`, `._relaxmidside`, `._cellqual`, `._binary_reader`, one per
extension surface the spec counts. -/
theorem c1_build_script_extensions :
    setupPyLineCount = 221 ∧
    ∀ args : List String,
      (ext_modules args).length = 5 ∧
      (ext_modules args).map ExtModule.name =
        [ "ansys.mapdl.reader._archive"
        , "ansys.mapdl.reader._reader"
        , "ansys.mapdl.reader._relaxmidside"
        , "ansys.mapdl.reader._cellqual"
        , "ansys.mapdl.reader._binary_reader" ] ∧
      ((ext_modules args).map ExtModule.name).Nodup := by
  refine ⟨rfl, fun args => ⟨rfl, rfl, ?_⟩⟩
  have h : (ext_modules args).map ExtModule.name =
      [ "ansys.mapdl.reader._archive"
      , "ansys.mapdl.reader._reader"
      , "ansys.mapdl.reader._relaxmidside"
      , "ansys.mapdl.reader._cellqual"
      , "ansys.mapdl.reader._binary_reader" ] := rfl
  rw [h]
  decide

/-- C8: `check_cython` returns normally (without requiring Cython)
whenever some filename in `ansys/mapdl/reader` contains the substring
`"_binary_reader"`; when no filename does and the cython module cannot
be imported, it raises `ImportError`. -/
theorem c8_check_cython :
    (∀ (files : List String) (cy : Bool),
      (∃ f ∈ files, strHasSub f "_binary_reader" = true) →
        check_cython files cy = .ok ()) ∧
    (∀ files : List String,
      (∀ f ∈ files, strHasSub f "_binary_reader" = false) →
        check_cython files false = .error (.importError cythonErrMsg)) := by
  constructor
  · intro files cy h
    have hany : files.any (fun f => strHasSub f "_binary_reader") = true := by
      rw [List.any_eq_true]
      obtain ⟨f, hf, hsub⟩ := h
      exact ⟨f, hf, hsub⟩
    simp [check_cython, hany]
  · intro files h
    have hany : files.any (fun f => strHasSub f "_binary_reader") = false := by
      rw [Bool.eq_false_iff]
      intro hcontra
      rw [List.any_eq_true] at hcontra
      obtain ⟨f, hf, hsub⟩ := hcontra
      rw [h f hf] at hsub
      exact Bool.false_ne_true hsub
    simp [check_cython, hany]

/-- C8 witness: with a `_binary_reader` binary present `check_cython`
succeeds even without cython; with neither present it raises
`ImportError`. -/
theorem c8_check_cython_witness :
    check_cython ["_binary_reader.cp38-win_amd64.pyd", "misc.py"] false
      = .ok () ∧
    check_cython ["misc.py"] false = .error (.importError cythonErrMsg) := by
  constructor
  · exact c8_check_cython.1 _ false
      ⟨"_binary_reader.cp38-win_amd64.pyd", by simp, by decide⟩
  · exact c8_check_cython.2 _ (by decide)

/-- C9 evaluation at the failing input: because `comp = m.group(1)` is
nested under `if m is None:` (src/setup.py lines 95-99), an argument of
the form `--compiler=unix` matches the first regex and is then ignored,
so `compilerName` keeps the default (here `"msvc"`) and the extensions
get `["/Ox", "-w"]` instead of `["-O3", "-w"]`. -/
theorem c9_compiler_eq_option_ignored :
    compilerName "msvc" ["setup.py", "build_ext", "--compiler=unix"]
      = "msvc" ∧
    cmp_arg (compilerName "msvc" ["setup.py", "build_ext", "--compiler=unix"])
      = ["/Ox", "-w"] := by
  constructor <;> decide

/-- C10: when the interpreter's pointer size is 64 bits the vtk import
guard is skipped and the script cannot raise its 64-bit `RuntimeError`;
the `RuntimeError` branch is reachable only on non-64-bit Python with
vtk not importable. -/
theorem c10_vtk_guard_64bit :
    (∀ (p : Nat) (b : Bool), p * 8 = 64 → vtk_guard p b = .ok ()) ∧
    (∀ (p : Nat) (b : Bool) (e : PyError),
      vtk_guard p b = .error e → p * 8 ≠ 64 ∧ b = false) := by
  constructor
  · intro p b h
    simp [vtk_guard, h]
  · intro p b e h
    by_cases h64 : p * 8 = 64
    · simp [vtk_guard, h64] at h
    · cases b with
      | true => simp [vtk_guard, h64] at h
      | false => exact ⟨h64, rfl⟩

/-- C10 witness: an 8-byte pointer size (64 bits) skips the guard even
with vtk absent, and a 4-byte pointer size with vtk absent raises. -/
theorem c10_vtk_guard_64bit_witness :
    vtk_guard 8 false = .ok () ∧ (4 * 8 ≠ 64 ∧ false = false) := by
  constructor
  · exact c10_vtk_guard_64bit.1 8 false (by norm_num)
  · exact c10_vtk_guard_64bit.2 4 false (.runtimeError vtkErrMsg) rfl

/-! ## Part 2: the decoding core, modelled from the spec

The Cython/C extension sources that implement the decoding core are not
under `src/`; only the build script that registers them is.  The
definitions below are therefore modelled from the specification text. -/

/-- Modelled from the spec: the error taxonomy of §7 (the extension
sources that define these failure modes are not under `src/`). -/
inductive CoreError where
  | truncated
  | unsupportedVersion
  | corruptRecord
  | missingSection
  | unknownElementType (id : Nat)
  | duplicateNodeId (id : Nat)
  | danglingNodeReference (id : Nat)
  | resultNotAvailable
  | indexOutOfRange (row col : Nat)
  | outOfBounds
deriving DecidableEq, Repr

/-- Little-endian value of a byte list (bytes taken mod 256). -/
def leNat : List Nat → Nat
  | [] => 0
  | b :: rest => b % 256 + 256 * leNat rest

/-- Two's-complement reading of an unsigned `w`-bit value. -/
def toSigned (w : Nat) (n : Nat) : Int :=
  if n < 2 ^ (w - 1) then (n : Int) else (n : Int) - 2 ^ w

/-- Modelled from the spec (§4.1 Binary Cursor): a fixed byte buffer and
a mutable read position. -/
structure Cursor where
  buf : List Nat
  pos : Nat
deriving DecidableEq, Repr

/-- Bytes remaining from the current position (§4.1 `remaining()`). -/
def Cursor.remaining (c : Cursor) : Nat := c.buf.length - c.pos

/-- Modelled from the spec: `read_bytes(n)` fails with `OutOfBounds`
when the requested width exceeds the buffer remaining from the current
position, leaving the position unchanged; on success it returns the `n`
bytes and advances. -/
def Cursor.read_bytes (c : Cursor) (n : Nat) :
    Except CoreError (List Nat) × Cursor :=
  if n ≤ c.remaining then
    (.ok ((c.buf.drop c.pos).take n), { c with pos := c.pos + n })
  else (.error .outOfBounds, c)

/-- Modelled from the spec: `seek(offset)`, bounds-checked. -/
def Cursor.seek (c : Cursor) (off : Nat) : Except CoreError Unit × Cursor :=
  if off ≤ c.buf.length then (.ok (), { c with pos := off })
  else (.error .outOfBounds, c)

/-- Modelled from the spec: `skip(n)`, bounds-checked. -/
def Cursor.skip (c : Cursor) (n : Nat) : Except CoreError Unit × Cursor :=
  if n ≤ c.remaining then (.ok (), { c with pos := c.pos + n })
  else (.error .outOfBounds, c)

/-- Modelled from the spec: `read_i32`, four little-endian bytes read as
a signed 32-bit integer. -/
def Cursor.read_i32 (c : Cursor) : Except CoreError Int × Cursor :=
  match c.read_bytes 4 with
  | (.ok bs, c2) => (.ok (toSigned 32 (leNat bs)), c2)
  | (.error e, c2) => (.error e, c2)

/-- Modelled from the spec: `read_i64`, eight little-endian bytes read
as a signed 64-bit integer. -/
def Cursor.read_i64 (c : Cursor) : Except CoreError Int × Cursor :=
  match c.read_bytes 8 with
  | (.ok bs, c2) => (.ok (toSigned 64 (leNat bs)), c2)
  | (.error e, c2) => (.error e, c2)

/-- Modelled from the spec: `read_f32`; the four little-endian payload
bytes are returned as the raw IEEE-754 bit pattern (the claims under
verification concern bounds checking, not float arithmetic). -/
def Cursor.read_f32 (c : Cursor) : Except CoreError Nat × Cursor :=
  match c.read_bytes 4 with
  | (.ok bs, c2) => (.ok (leNat bs), c2)
  | (.error e, c2) => (.error e, c2)

/-- Modelled from the spec: `read_f64`, eight bytes as raw bit pattern. -/
def Cursor.read_f64 (c : Cursor) : Except CoreError Nat × Cursor :=
  match c.read_bytes 8 with
  | (.ok bs, c2) => (.ok (leNat bs), c2)
  | (.error e, c2) => (.error e, c2)

/-- The five read operations of the Binary Cursor (§4.1). -/
inductive ReadOp where
  | i32
  | i64
  | f32
  | f64
  | bytes (n : Nat)
deriving DecidableEq, Repr

/-- Requested width in bytes of a read operation. -/
def ReadOp.width : ReadOp → Nat
  | .i32 => 4
  | .i64 => 8
  | .f32 => 4
  | .f64 => 8
  | .bytes n => n

/-- Result value of a read operation. -/
inductive ReadVal where
  | int (v : Int)
  | bits (v : Nat)
  | raw (bs : List Nat)
deriving DecidableEq, Repr

/-- Dispatch a read operation on a cursor. -/
def runRead : ReadOp → Cursor → Except CoreError ReadVal × Cursor
  | .i32, c =>
    match c.read_i32 with
    | (.ok v, c2) => (.ok (.int v), c2)
    | (.error e, c2) => (.error e, c2)
  | .i64, c =>
    match c.read_i64 with
    | (.ok v, c2) => (.ok (.int v), c2)
    | (.error e, c2) => (.error e, c2)
  | .f32, c =>
    match c.read_f32 with
    | (.ok v, c2) => (.ok (.bits v), c2)
    | (.error e, c2) => (.error e, c2)
  | .f64, c =>
    match c.read_f64 with
    | (.ok v, c2) => (.ok (.bits v), c2)
    | (.error e, c2) => (.error e, c2)
  | .bytes n, c =>
    match c.read_bytes n with
    | (.ok bs, c2) => (.ok (.raw bs), c2)
    | (.error e, c2) => (.error e, c2)

/-- Modelled from the spec (§3, §4.2): a Pointer Table entry, mapping a
section to byte offset, byte length and record count. -/
structure PtrEntry where
  offset : Nat
  byteLen : Nat
  recCount : Nat
deriving DecidableEq, Repr

/-- Modelled from the spec (§4.2): iterate `count` length-prefixed
records starting at `pos`; a record whose 4-byte declared length would
read past `limit` (the section end) fails with `CorruptRecord` rather
than reading into adjacent sections. -/
def readRecords (buf : List Nat) (limit : Nat) :
    Nat → Nat → Except CoreError (List (List Nat))
  | _, 0 => .ok []
  | pos, n + 1 =>
    if pos + 4 ≤ limit then
      let len := leNat ((buf.drop pos).take 4)
      if pos + 4 + len ≤ limit then
        match readRecords buf limit (pos + 4 + len) n with
        | .ok rs => .ok ((buf.drop (pos + 4)).take len :: rs)
        | .error e => .error e
      else .error .corruptRecord
    else .error .corruptRecord

/-- Modelled from the spec (§4.2): read all records of the section a
Pointer Table entry describes. -/
def parseSection (buf : List Nat) (e : PtrEntry) :
    Except CoreError (List (List Nat)) :=
  readRecords buf (e.offset + e.byteLen) e.offset e.recCount

/-! ### Theorem for C2 -/

/-- C2: every Binary Cursor read operation, on every buffer and read
position, returns `OutOfBounds` and leaves the read position unchanged
when the requested width exceeds the bytes remaining; it never silently
truncates. -/
theorem c2_cursor_out_of_bounds (op : ReadOp) (c : Cursor)
    (h : c.remaining < op.width) :
    (runRead op c).1 = .error .outOfBounds ∧ (runRead op c).2.pos = c.pos := by
  have hb : ¬ op.width ≤ c.remaining := Nat.not_le.mpr h
  cases op with
  | i32 =>
    simp only [ReadOp.width] at hb
    simp [runRead, Cursor.read_i32, Cursor.read_bytes, if_neg hb]
  | i64 =>
    simp only [ReadOp.width] at hb
    simp [runRead, Cursor.read_i64, Cursor.read_bytes, if_neg hb]
  | f32 =>
    simp only [ReadOp.width] at hb
    simp [runRead, Cursor.read_f32, Cursor.read_bytes, if_neg hb]
  | f64 =>
    simp only [ReadOp.width] at hb
    simp [runRead, Cursor.read_f64, Cursor.read_bytes, if_neg hb]
  | bytes n =>
    simp only [ReadOp.width] at hb
    simp [runRead, Cursor.read_bytes, if_neg hb]

/-- C2 witness: reading 5 raw bytes from a 2-byte buffer fails with
`OutOfBounds` and does not move the position. -/
theorem c2_cursor_out_of_bounds_witness :
    (runRead (.bytes 5) ⟨[10, 20], 0⟩).1 = .error .outOfBounds ∧
    (runRead (.bytes 5) ⟨[10, 20], 0⟩).2.pos = (0 : Nat) :=
  c2_cursor_out_of_bounds (.bytes 5) ⟨[10, 20], 0⟩ (by decide)

/-! ### Theorem for C7 -/

/-- C7: a section whose Pointer Table entry declares record count 0
parses to an empty but valid record list, never an error, whatever the
buffer, offset and byte length. -/
theorem c7_zero_record_section (buf : List Nat) (off len : Nat) :
    parseSection buf ⟨off, len, 0⟩ = .ok [] := rfl

/-! ### Archive parser (§4.3), modelled from the spec -/

/-- Modelled from the spec (§3 Node Table): one node record,
`(node_id, x, y, z)`. -/
structure NodeRec where
  node_id : Nat
  x : ℚ
  y : ℚ
  z : ℚ
deriving DecidableEq, Repr

/-- Modelled from the spec (§3 Element Table): one element record with
id, enumerated type tag, node references and a material attribute id. -/
structure ElemRec where
  element_id : Nat
  element_type : Nat
  nodeRefs : List Nat
  matId : Nat
deriving DecidableEq, Repr

/-- Modelled from the spec (§9): the tagged-variant dispatch from
`element_type` to its fixed node-reference count.  Tags: 1 linear
tetrahedron (4 nodes), 2 quadratic tetrahedron (10), 3 linear
hexahedron (8), 4 quadratic hexahedron (20); all other tags are
unknown. -/
def elemNodeCount : Nat → Option Nat
  | 1 => some 4
  | 2 => some 10
  | 3 => some 8
  | 4 => some 20
  | _ => none

/-- Modelled from the spec (§4.3): decode the node section, failing with
`DuplicateNodeId` when a record's id was already seen — last write wins
is not permitted. -/
def parseNodeTable (seen : List Nat) : List NodeRec → Except CoreError (List NodeRec)
  | [] => .ok []
  | r :: rest =>
    if r.node_id ∈ seen then .error (.duplicateNodeId r.node_id)
    else
      match parseNodeTable (r.node_id :: seen) rest with
      | .ok ns => .ok (r :: ns)
      | .error e => .error e

/-- Modelled from the spec (§4.3): decode the element section; an
unknown `element_type` fails with `UnknownElementType` naming the
offending element id, and a record whose node-reference count does not
match its type's fixed width fails with `CorruptRecord`. -/
def parseElemTable : List ElemRec → Except CoreError (List ElemRec)
  | [] => .ok []
  | r :: rest =>
    match elemNodeCount r.element_type with
    | none => .error (.unknownElementType r.element_id)
    | some k =>
      if r.nodeRefs.length == k then
        match parseElemTable rest with
        | .ok es => .ok (r :: es)
        | .error e => .error e
      else .error .corruptRecord

/-- Modelled from the spec (§4.3): an archive file already split into
its node-section and element-section records. -/
structure ArchiveFile where
  nodeRecs : List NodeRec
  elemRecs : List ElemRec
deriving DecidableEq, Repr

/-- Modelled from the spec (§4.3):
`parse_archive(path) -> (NodeTable, ElementTable) | ParseError`. -/
def parse_archive (f : ArchiveFile) :
    Except CoreError (List NodeRec × List ElemRec) :=
  match parseNodeTable [] f.nodeRecs with
  | .error e => .error e
  | .ok ns =>
    match parseElemTable f.elemRecs with
    | .error e => .error e
    | .ok es => .ok (ns, es)

/-! ### Result/Matrix parser (§4.4), modelled from the spec -/

/-- Modelled from the spec (§3 Sparse Matrix): one streamed entry
`(row index, column index, value)`. -/
structure MatEntry where
  row : Nat
  col : Nat
  val : ℚ
deriving DecidableEq, Repr

/-- Modelled from the spec (§4.4): a matrix file already decoded to its
declared dimension, symmetry flag and entry stream. -/
structure MatrixFile where
  dim : Nat
  symmetric : Bool
  entries : List MatEntry
deriving DecidableEq, Repr

/-- Modelled from the spec (§3 Sparse Matrix): the output structure. -/
structure SparseMatrix where
  dim : Nat
  symmetric : Bool
  entries : List MatEntry
deriving DecidableEq, Repr

/-- Invariant of §3: row/col indices lie within `[0, dim)`. -/
def entryInRange (d : Nat) (e : MatEntry) : Bool :=
  decide (e.row < d) && decide (e.col < d)

/-- Modelled from the spec (§4.4): entries are validated against the
declared dimension as they stream in, failing fast with
`IndexOutOfRange` on the first violation. -/
def parseEntries (d : Nat) : List MatEntry → Except CoreError (List MatEntry)
  | [] => .ok []
  | e :: rest =>
    if entryInRange d e then
      match parseEntries d rest with
      | .ok es => .ok (e :: es)
      | .error err => .error err
    else .error (.indexOutOfRange e.row e.col)

/-- Modelled from the spec (§4.4):
`parse_matrix(path) -> SparseMatrix | ParseError`. -/
def parse_matrix (f : MatrixFile) : Except CoreError SparseMatrix :=
  match parseEntries f.dim f.entries with
  | .ok es => .ok ⟨f.dim, f.symmetric, es⟩
  | .error e => .error e

/-! ### Mesh assembler (§4.5), modelled from the spec -/

/-- Modelled from the spec (§3 Field Result): id-indexed numeric
vectors tagged with a result kind and a load step. -/
structure FieldResult where
  kind : Nat
  step : Nat
  values : List (Nat × List ℚ)
deriving DecidableEq, Repr

/-- Modelled from the spec (§3 Mesh): one Node Table, one Element Table
and zero or more Field Results. -/
structure Mesh where
  nodes : List NodeRec
  elements : List ElemRec
  results : List FieldResult
deriving DecidableEq, Repr

/-- Node count re-derived from a Mesh. -/
def Mesh.nodeCount (m : Mesh) : Nat := m.nodes.length

/-- Element count re-derived from a Mesh. -/
def Mesh.elemCount (m : Mesh) : Nat := m.elements.length

/-- First node reference of `e` that does not resolve in the Node
Table, if any. -/
def danglingRef (nodes : List NodeRec) (e : ElemRec) : Option Nat :=
  e.nodeRefs.find? (fun r => ! nodes.any (fun n => n.node_id == r))

/-- First Field-Result id that resolves in neither table, if any. -/
def danglingResultId (nodes : List NodeRec) (elems : List ElemRec)
    (fr : FieldResult) : Option Nat :=
  (fr.values.map Prod.fst).find? (fun i =>
    ! (nodes.any (fun n => n.node_id == i) ||
       elems.any (fun e => e.element_id == i)))

/-- Modelled from the spec (§4.5):
`assemble(nodes, elements, results?) -> Mesh | AssemblyError`;
cross-validates every element's node references against the Node Table
(`DanglingNodeReference` on violation, naming the offending id) and
every Field Result's id domain against the corresponding tables. -/
def assemble (nodes : List NodeRec) (elems : List ElemRec)
    (results : List FieldResult) : Except CoreError Mesh :=
  match elems.findSome? (danglingRef nodes) with
  | some r => .error (.danglingNodeReference r)
  | none =>
    match results.findSome? (danglingResultId nodes elems) with
    | some i => .error (.danglingNodeReference i)
    | none => .ok ⟨nodes, elems, results⟩

/-! ### Theorems for C3, C4, C5 -/

lemma parseNodeTable_ok_nodup :
    ∀ (recs : List NodeRec) (seen : List Nat) (ns : List NodeRec),
      parseNodeTable seen recs = .ok ns →
      (recs.map NodeRec.node_id).Nodup ∧
      ∀ i ∈ recs.map NodeRec.node_id, i ∉ seen := by
  intro recs
  induction recs with
  | nil => intro seen ns _; simp
  | cons r rest ih =>
    intro seen ns h
    simp only [parseNodeTable] at h
    by_cases hc : r.node_id ∈ seen
    · rw [if_pos hc] at h
      exact absurd h (by simp)
    · rw [if_neg hc] at h
      cases hrec : parseNodeTable (r.node_id :: seen) rest with
      | error e => rw [hrec] at h; simp at h
      | ok ns0 =>
        rw [hrec] at h
        obtain ⟨hnd, hns⟩ := ih (r.node_id :: seen) ns0 hrec
        have hnotmem : r.node_id ∉ rest.map NodeRec.node_id := fun hmem =>
          (hns _ hmem) (List.mem_cons_self _ _)
        refine ⟨?_, ?_⟩
        · rw [List.map_cons]
          exact List.nodup_cons.mpr ⟨hnotmem, hnd⟩
        · intro i hi
          rw [List.map_cons] at hi
          rcases List.mem_cons.mp hi with hi1 | hi2
          · exact hi1 ▸ hc
          · exact fun hmem => (hns i hi2) (List.mem_cons_of_mem _ hmem)

lemma parseNodeTable_shape :
    ∀ (recs : List NodeRec) (seen : List Nat),
      (∃ ns, parseNodeTable seen recs = .ok ns) ∨
      (∃ d, parseNodeTable seen recs = .error (.duplicateNodeId d)) := by
  intro recs
  induction recs with
  | nil => intro seen; exact .inl ⟨[], rfl⟩
  | cons r rest ih =>
    intro seen
    by_cases hc : r.node_id ∈ seen
    · exact .inr ⟨r.node_id, by simp [parseNodeTable, hc]⟩
    · rcases ih (r.node_id :: seen) with ⟨ns, hns⟩ | ⟨d, hd⟩
      · exact .inl ⟨r :: ns, by simp [parseNodeTable, hc, hns]⟩
      · exact .inr ⟨d, by simp [parseNodeTable, hc, hd]⟩

/-- C3: an archive whose node section holds two records with the same
`node_id` makes `parse_archive` fail with `DuplicateNodeId`; it never
returns a table (so the later record never overwrites the earlier
one). -/
theorem c3_duplicate_node_id (f : ArchiveFile)
    (h : ¬ (f.nodeRecs.map NodeRec.node_id).Nodup) :
    ∃ d, parse_archive f = .error (.duplicateNodeId d) := by
  rcases parseNodeTable_shape f.nodeRecs [] with ⟨ns, hns⟩ | ⟨d, hd⟩
  · exact absurd (parseNodeTable_ok_nodup f.nodeRecs [] ns hns).1 h
  · exact ⟨d, by simp [parse_archive, hd]⟩

/-- C3 witness: two node records with id 7 make `parse_archive` fail
with `DuplicateNodeId`. -/
theorem c3_duplicate_node_id_witness :
    ∃ d, parse_archive ⟨[⟨7, 0, 0, 0⟩, ⟨7, 1, 2, 3⟩], []⟩
      = .error (.duplicateNodeId d) :=
  c3_duplicate_node_id _ (by decide)

lemma parseEntries_first_violation (d : Nat) :
    ∀ (es : List MatEntry) (e0 : MatEntry),
      es.find? (fun e => ! entryInRange d e) = some e0 →
      parseEntries d es = .error (.indexOutOfRange e0.row e0.col) := by
  intro es
  induction es with
  | nil => intro e0 h; simp at h
  | cons e rest ih =>
    intro e0 h
    by_cases hr : entryInRange d e = true
    · simp only [List.find?_cons, hr, Bool.not_true] at h
      simp [parseEntries, hr, ih e0 h]
    · have hf : entryInRange d e = false := Bool.eq_false_iff.mpr hr
      simp only [List.find?_cons, hf, Bool.not_false, Option.some.injEq] at h
      subst h
      simp [parseEntries, hf]

/-- C4: when the entry stream of a matrix file holds an entry whose row
or column index falls outside `[0, dim)`, `parse_matrix` fails with
`IndexOutOfRange` carrying the indices of the first such entry, and no
entry is accepted into an output structure. -/
theorem c4_matrix_fail_fast (f : MatrixFile) (e0 : MatEntry)
    (h : f.entries.find? (fun e => ! entryInRange f.dim e) = some e0) :
    parse_matrix f = .error (.indexOutOfRange e0.row e0.col) := by
  simp [parse_matrix, parseEntries_first_violation f.dim f.entries e0 h]

/-- C4 witness (Scenario C of the spec): a matrix of declared dimension
100 with one entry at row 150 fails with `IndexOutOfRange` and no
accepted entry. -/
theorem c4_matrix_fail_fast_witness :
    parse_matrix ⟨100, false, [⟨150, 0, 1⟩]⟩
      = .error (.indexOutOfRange 150 0) :=
  c4_matrix_fail_fast ⟨100, false, [⟨150, 0, 1⟩]⟩ ⟨150, 0, 1⟩ (by rfl)

/-- C5: when `assemble` accepts a Node Table and an Element Table with
no Field Results, the node and element counts re-derived from the
resulting Mesh equal the lengths of the source tables exactly. -/
theorem c5_assemble_round_trip (nodes : List NodeRec) (elems : List ElemRec)
    (m : Mesh) (h : assemble nodes elems [] = .ok m) :
    m.nodeCount = nodes.length ∧ m.elemCount = elems.length := by
  unfold assemble at h
  cases hf : elems.findSome? (danglingRef nodes) with
  | some r => rw [hf] at h; simp at h
  | none =>
    rw [hf] at h
    have h2 : Except.ok (ε := CoreError) (Mesh.mk nodes elems []) = .ok m := h
    injection h2 with h3
    subst h3
    exact ⟨rfl, rfl⟩

/-- C5 witness: a four-node, one-element mesh assembles and re-derives
counts 4 and 1. -/
theorem c5_assemble_round_trip_witness :
    Mesh.nodeCount ⟨[⟨1, 0, 0, 0⟩, ⟨2, 1, 0, 0⟩, ⟨3, 0, 1, 0⟩, ⟨4, 0, 0, 1⟩],
        [⟨11, 1, [1, 2, 3, 4], 0⟩], []⟩ = 4 ∧
    Mesh.elemCount ⟨[⟨1, 0, 0, 0⟩, ⟨2, 1, 0, 0⟩, ⟨3, 0, 1, 0⟩, ⟨4, 0, 0, 1⟩],
        [⟨11, 1, [1, 2, 3, 4], 0⟩], []⟩ = 1 :=
  c5_assemble_round_trip
    [⟨1, 0, 0, 0⟩, ⟨2, 1, 0, 0⟩, ⟨3, 0, 1, 0⟩, ⟨4, 0, 0, 1⟩]
    [⟨11, 1, [1, 2, 3, 4], 0⟩] _ rfl

/-! ### Midside relaxation (§4.6), modelled from the spec -/

/-- Modelled from the spec (§4.6): a quadratic element seen by the
relaxation pass: its corner node ids, and for each midside node the
triple `(midside id, edge corner id, edge corner id)` the element's
node ordering assigns to it. -/
structure QElem where
  corners : List Nat
  mids : List (Nat × Nat × Nat)
deriving DecidableEq, Repr

/-- Is node `i` a corner node of some element? -/
def isCorner (elems : List QElem) (i : Nat) : Bool :=
  elems.any (fun e => e.corners.contains i)

/-- The first edge `(a, b)` some element assigns to midside node `i`. -/
def midEdge (elems : List QElem) (i : Nat) : Option (Nat × Nat) :=
  elems.findSome? (fun e =>
    e.mids.findSome? (fun m =>
      if m.1 == i then some (m.2.1, m.2.2) else none))

/-- Look a node up by id in a Node Table. -/
def nodeById (nodes : List NodeRec) (i : Nat) : Option NodeRec :=
  nodes.find? (fun n => n.node_id == i)

/-- Modelled from the spec (§4.6): the relaxed position of one node.
Corner nodes are never moved; a midside node is recomputed as the
midpoint of its adjacent corner nodes; a node whose edge assignment
does not point at corner nodes, or whose edge corners are absent from
the table, is skipped (the spec's warning-level skip), as is any node
that is no midside node at all. -/
def relaxNode (nodes : List NodeRec) (elems : List QElem) (n : NodeRec) : NodeRec :=
  if isCorner elems n.node_id then n
  else
    match midEdge elems n.node_id with
    | none => n
    | some (a, b) =>
      if isCorner elems a && isCorner elems b then
        match nodeById nodes a, nodeById nodes b with
        | some na, some nb =>
          { n with x := (na.x + nb.x) / 2
                 , y := (na.y + nb.y) / 2
                 , z := (na.z + nb.z) / 2 }
        | _, _ => n
      else n

/-- Modelled from the spec (§4.6): midside relaxation produces an
updated Node Table; all midpoints are computed from the input table
(no partial mutation visible mid-computation, §3). -/
def relax (elems : List QElem) (nodes : List NodeRec) : List NodeRec :=
  nodes.map (relaxNode nodes elems)

/-- Movement of one node between two positions: the L1 distance. -/
def moveDist (p q : NodeRec) : ℚ := |p.x - q.x| + |p.y - q.y| + |p.z - q.z|

/-- Largest per-node movement between two Node Tables. -/
def maxMove (xs ys : List NodeRec) : ℚ :=
  ((xs.zip ys).map (fun p => moveDist p.1 p.2)).foldr max 0

/-! ### Theorem for C6 -/

lemma relaxNode_node_id (nodes : List NodeRec) (elems : List QElem)
    (n : NodeRec) : (relaxNode nodes elems n).node_id = n.node_id := by
  unfold relaxNode
  repeat' split
  all_goals rfl

lemma relaxNode_corner (nodes : List NodeRec) (elems : List QElem)
    (n : NodeRec) (h : isCorner elems n.node_id = true) :
    relaxNode nodes elems n = n := by
  simp [relaxNode, h]

lemma nodeById_relax (elems : List QElem) (nodes : List NodeRec) (i : Nat) :
    nodeById (relax elems nodes) i
      = (nodeById nodes i).map (relaxNode nodes elems) := by
  unfold nodeById relax
  have hp : ((fun n : NodeRec => n.node_id == i) ∘ relaxNode nodes elems)
      = (fun n : NodeRec => n.node_id == i) := by
    funext n
    simp [Function.comp, relaxNode_node_id]
  rw [List.find?_map, hp]

lemma nodeById_beq (nodes : List NodeRec) (i : Nat) (n : NodeRec)
    (h : nodeById nodes i = some n) : n.node_id = i := by
  have := List.find?_some h
  simpa using this

lemma nodeById_relax_corner (elems : List QElem) (nodes : List NodeRec)
    (i : Nat) (h : isCorner elems i = true) :
    nodeById (relax elems nodes) i = nodeById nodes i := by
  rw [nodeById_relax]
  cases hn : nodeById nodes i with
  | none => rfl
  | some n =>
    have hid : n.node_id = i := nodeById_beq nodes i n hn
    simp [relaxNode_corner nodes elems n (hid ▸ h)]

lemma relaxNode_relax_fix (elems : List QElem) (nodes : List NodeRec)
    (n : NodeRec) :
    relaxNode (relax elems nodes) elems (relaxNode nodes elems n)
      = relaxNode nodes elems n := by
  by_cases hc : isCorner elems n.node_id = true
  · rw [relaxNode_corner nodes elems n hc]
    exact relaxNode_corner _ elems n hc
  · have hcf : isCorner elems n.node_id = false := Bool.eq_false_iff.mpr hc
    cases hm : midEdge elems n.node_id with
    | none =>
      have h1 : relaxNode nodes elems n = n := by
        simp [relaxNode, hcf, hm]
      rw [h1]
      simp [relaxNode, hcf, hm]
    | some ab =>
      obtain ⟨a, b⟩ := ab
      by_cases hab : (isCorner elems a && isCorner elems b) = true
      · cases hna : nodeById nodes a with
        | none =>
          have h1 : relaxNode nodes elems n = n := by
            simp [relaxNode, hcf, hm, hab, hna]
          rw [h1]
          have hna2 : nodeById (relax elems nodes) a = none := by
            rw [nodeById_relax, hna]; rfl
          simp [relaxNode, hcf, hm, hab, hna2]
        | some na =>
          cases hnb : nodeById nodes b with
          | none =>
            have h1 : relaxNode nodes elems n = n := by
              simp [relaxNode, hcf, hm, hab, hna, hnb]
            rw [h1]
            have hnb2 : nodeById (relax elems nodes) b = none := by
              rw [nodeById_relax, hnb]; rfl
            simp [relaxNode, hcf, hm, hab, hnb2]
          | some nb =>
            have hab2 := hab
            rw [Bool.and_eq_true] at hab2
            obtain ⟨ha, hb⟩ := hab2
            have hna2 : nodeById (relax elems nodes) a = some na := by
              rw [nodeById_relax_corner elems nodes a ha, hna]
            have hnb2 : nodeById (relax elems nodes) b = some nb := by
              rw [nodeById_relax_corner elems nodes b hb, hnb]
            have h1 : relaxNode nodes elems n =
                { n with x := (na.x + nb.x) / 2
                       , y := (na.y + nb.y) / 2
                       , z := (na.z + nb.z) / 2 } := by
              simp [relaxNode, hcf, hm, hab, hna, hnb]
            rw [h1]
            simp [relaxNode, hcf, hm, hab, hna2, hnb2]
      · have habf := Bool.eq_false_iff.mpr hab
        have h1 : relaxNode nodes elems n = n := by
          simp [relaxNode, hcf, hm, habf]
        rw [h1]
        simp [relaxNode, hcf, hm, habf]

lemma maxMove_self (xs : List NodeRec) : maxMove xs xs = 0 := by
  induction xs with
  | nil => rfl
  | cons x t ih =>
    simp only [maxMove, List.zip_cons_cons, List.map_cons, List.foldr_cons]
    have hx : moveDist x x = 0 := by simp [moveDist]
    rw [hx]
    simp only [maxMove] at ih
    rw [ih]
    simp

/-- C6: midside relaxation never moves a corner node (its record passes
through unchanged into the output table), relaxing an already-relaxed
table is a fixed point, and in particular a second relaxation moves
every node — midside nodes included — by less than any fixed positive
tolerance. -/
theorem c6_relax_idempotent (elems : List QElem) (nodes : List NodeRec) :
    (∀ n ∈ nodes, isCorner elems n.node_id = true →
      relaxNode nodes elems n = n ∧ n ∈ relax elems nodes) ∧
    relax elems (relax elems nodes) = relax elems nodes ∧
    (∀ tol : ℚ, 0 < tol →
      maxMove (relax elems nodes) (relax elems (relax elems nodes)) < tol) := by
  have h2 : relax elems (relax elems nodes) = relax elems nodes := by
    show (nodes.map (relaxNode nodes elems)).map
        (relaxNode (relax elems nodes) elems) = nodes.map (relaxNode nodes elems)
    rw [List.map_map]
    exact List.map_congr_left (fun n _ => relaxNode_relax_fix elems nodes n)
  refine ⟨?_, h2, ?_⟩
  · intro n hn hcorner
    have hfix := relaxNode_corner nodes elems n hcorner
    exact ⟨hfix, List.mem_map.mpr ⟨n, hn, hfix⟩⟩
  · intro tol htol
    rw [h2, maxMove_self]
    exact htol

/-- C6 witness: one quadratic edge (corners 1, 2; midside 3); after the
first relaxation the corner records are unchanged, a second relaxation
is the identity, and the midside movement under it is below the
tolerance 1/1000. -/
theorem c6_relax_idempotent_witness :
    (relaxNode [⟨1, 0, 0, 0⟩, ⟨2, 1, 0, 0⟩, ⟨3, 7, 7, 7⟩]
        [⟨[1, 2], [(3, 1, 2)]⟩] ⟨1, 0, 0, 0⟩ = ⟨1, 0, 0, 0⟩ ∧
      (⟨1, 0, 0, 0⟩ : NodeRec) ∈
        relax [⟨[1, 2], [(3, 1, 2)]⟩] [⟨1, 0, 0, 0⟩, ⟨2, 1, 0, 0⟩, ⟨3, 7, 7, 7⟩]) ∧
    relax [⟨[1, 2], [(3, 1, 2)]⟩]
        (relax [⟨[1, 2], [(3, 1, 2)]⟩] [⟨1, 0, 0, 0⟩, ⟨2, 1, 0, 0⟩, ⟨3, 7, 7, 7⟩])
      = relax [⟨[1, 2], [(3, 1, 2)]⟩] [⟨1, 0, 0, 0⟩, ⟨2, 1, 0, 0⟩, ⟨3, 7, 7, 7⟩] ∧
    maxMove (relax [⟨[1, 2], [(3, 1, 2)]⟩] [⟨1, 0, 0, 0⟩, ⟨2, 1, 0, 0⟩, ⟨3, 7, 7, 7⟩])
        (relax [⟨[1, 2], [(3, 1, 2)]⟩]
          (relax [⟨[1, 2], [(3, 1, 2)]⟩] [⟨1, 0, 0, 0⟩, ⟨2, 1, 0, 0⟩, ⟨3, 7, 7, 7⟩]))
      < 1 / 1000 := by
  refine ⟨(c6_relax_idempotent [⟨[1, 2], [(3, 1, 2)]⟩]
      [⟨1, 0, 0, 0⟩, ⟨2, 1, 0, 0⟩, ⟨3, 7, 7, 7⟩]).1 ⟨1, 0, 0, 0⟩
      (List.mem_cons_self _ _) (by decide),
    (c6_relax_idempotent [⟨[1, 2], [(3, 1, 2)]⟩]
      [⟨1, 0, 0, 0⟩, ⟨2, 1, 0, 0⟩, ⟨3, 7, 7, 7⟩]).2.1,
    (c6_relax_idempotent [⟨[1, 2], [(3, 1, 2)]⟩]
      [⟨1, 0, 0, 0⟩, ⟨2, 1, 0, 0⟩, ⟨3, 7, 7, 7⟩]).2.2 (1 / 1000) (by norm_num)⟩

end Spec2Proof
